import Mathlib

/-!
Shallow embedding of the coredhcp range-redis plugin
(`plugin.go`, `storage.go`) and proofs about its lease
lifecycle: the Lease Store operations, the DHCPv4 request handler,
the startup reconciliation loop, the expiry-notification loop and
the setup-time configuration validation.

Machine integers are modelled as `Int`/`Nat` with explicit `2^63`
bounds where Go's overflow checks matter.  Timestamps and durations
are `Int` nanoseconds, as in Go's `time.Time`/`time.Duration`.
-/

set_option autoImplicit false

namespace RangeRedis

/-- An IPv4 address, modelled as its big-endian 32-bit value
(`binary.BigEndian.Uint32` of the 4 bytes).  For well-formed 4-byte
addresses, Go's `net.IP.String` equality coincides with equality of
this value. -/
abbrev IPv4 := Nat

/-- Nanoseconds per second: Go's `time.Second`. -/
def nsPerSecond : Int := 1000000000

/-- Go's `time.minDuration` (`-1 << 63`). -/
def minDuration : Int := -(2 ^ 63)

/-- Go's `time.maxDuration` (`1<<63 - 1`). -/
def maxDuration : Int := 2 ^ 63 - 1

/-- Go's `%` on `int64` truncates toward zero.  For a positive modulus
`b` this is `a % b` (Euclidean) when `a ≥ 0` and `-((-a) % b)`
otherwise. -/
def goMod (a b : Int) : Int :=
  if a < 0 then -((-a) % b) else a % b

/-- Embedding of Go `time.Duration.Round` (half rounds away from zero):
`r := d % m`; for `d < 0` negate `r`, return `d + r` when `r+r < m`,
else `d - m + r` unless that overflows to below `minDuration`; for
`d ≥ 0` return `d - r` when `r+r < m`, else `d + m - r` unless that
overflows past `maxDuration`.  (`lessThanHalf(x,y)` is `x+x < y`; its
`uint64` addition cannot wrap for the second-sized moduli used here.) -/
def durRound (d m : Int) : Int :=
  if m ≤ 0 then d
  else
    let r := goMod d m
    if d < 0 then
      let r2 := -r
      if r2 + r2 < m then d + r2
      else
        let d1 := d - m + r2
        if d1 < d then d1 else minDuration
    else
      if r + r < m then d - r
      else
        let d1 := d + m - r
        if d1 > d then d1 else maxDuration

/-- Embedding of Go `time.Time.Round` (half rounds up): the internal
`div(t, d)` returns a remainder `r` with `0 ≤ r < d`, which for our
integer timestamps is the Euclidean remainder; the result is `t - r`
when `r+r < d`, else `t + (d - r)`. -/
def timeRound (t m : Int) : Int :=
  if m ≤ 0 then t
  else
    let r := t % m
    if r + r < m then t - r else t + (m - r)

/-- `Record` from `storage.go`: an IP lease record.  Go's `net.IP` may
be `nil` ("no lease"), hence `Option`; `Expires` is the absolute
timestamp in nanoseconds (Go `time.Time`). -/
structure Record where
  IP : Option IPv4
  Expires : Int
deriving Repr, DecidableEq

/-- The zero value `Record{}` built by `GetRecord` before the store
lookup: `nil` IP and the zero time. -/
def zeroRecord : Record := { IP := none, Expires := 0 }

/-- Result of a Redis `GET`: `redis.Nil` (key absent), a transport
error, or a string payload. -/
inductive RedisReply where
  | nilReply
  | errReply (msg : String)
  | value (payload : String)
deriving Repr, DecidableEq

/-- Result of the Redis `KEYS` call in `GetAllRecords`. -/
inductive RedisKeysReply where
  | nilReply
  | errReply (msg : String)
  | keys (ks : List String)
deriving Repr, DecidableEq

/-- Errors surfaced by the storage layer: a transport failure from the
store, or an unparsable stored payload (`json.Unmarshal` failure). -/
inductive StoreErr where
  | transport (msg : String)
  | corrupt
deriving Repr, DecidableEq

/-- `RedisProvider` from `storage.go`.  The external Redis connection
and JSON codec are modelled as explicit fields: `fetch key` is the
reply of `rdb.Get(ctx, key)`, `keysReply` the reply of
`rdb.Keys(ctx, Pfx ++ "*")`, and `unmarshal` is `json.Unmarshal` into
a `Record` (`none` on a decode error).  `Pfx` is the key prefix field
(set to `"mac:"` by `Init`). -/
structure RedisProvider where
  fetch : String → RedisReply
  keysReply : RedisKeysReply
  unmarshal : String → Option Record
  Pfx : String

/-- `RedisProvider.GetRecord` from `storage.go` (lines 73–89): get the
value at `Pfx ++ mac`; on `redis.Nil` return the zero record with no
error; on any other error propagate it; otherwise unmarshal, and
propagate a decode failure. -/
def RedisProvider.GetRecord (r : RedisProvider) (mac : String) :
    Except StoreErr Record :=
  match r.fetch (r.Pfx ++ mac) with
  | .nilReply => .ok zeroRecord
  | .errReply e => .error (.transport e)
  | .value s =>
    match r.unmarshal s with
    | none => .error .corrupt
    | some rec0 => .ok rec0

/-- The per-key loop of `GetAllRecords` (lines 99–108): for each key,
`GetRecord` on the key with the prefix stripped; skip the key when the
read fails or the record's IP is `nil`, otherwise append the record. -/
def getAllLoop (r : RedisProvider) : List String → List Record
  | [] => []
  | key :: rest =>
    match r.GetRecord (key.drop r.Pfx.length) with
    | .error _ => getAllLoop r rest
    | .ok rec0 =>
      match rec0.IP with
      | none => getAllLoop r rest
      | some _ => rec0 :: getAllLoop r rest

/-- `RedisProvider.GetAllRecords` from `storage.go` (lines 92–112):
list the keys under the prefix (`redis.Nil` yields the empty list, any
other error propagates), then run the per-key loop. -/
def RedisProvider.GetAllRecords (r : RedisProvider) :
    Except StoreErr (List Record) :=
  match r.keysReply with
  | .nilReply => .ok []
  | .errReply e => .error (.transport e)
  | .keys ks => .ok (getAllLoop r ks)

/-- The `SET` command issued by `SaveIPAddress`: key, serialized
payload, and the relative TTL handed to Redis (nanoseconds). -/
structure SetCmd where
  key : String
  val : String
  ttl : Int
deriving Repr, DecidableEq

/-- `RedisProvider.SaveIPAddress` from `storage.go` (lines 114–123):
marshal the record (`marshal` stands for `json.Marshal`, which cannot
fail on this record type) and issue one `SET` whose TTL is
`time.Until(record.Expires).Round(time.Second)`, i.e. the remaining
time to `Expires` at call time `now`, rounded to the nearest second. -/
def RedisProvider.SaveIPAddress (r : RedisProvider)
    (marshal : Record → String) (now : Int) (mac : String)
    (rec0 : Record) : SetCmd :=
  { key := r.Pfx ++ mac
    val := marshal rec0
    ttl := durRound (rec0.Expires - now) nsPerSecond }

/-- The DHCPv4 response fields the handler writes (`plugin.go` lines
80–81): `resp.YourIPAddr` and the IP-address-lease-time option, which
carries `p.LeaseTime.Round(time.Second)`. -/
structure Resp where
  YourIPAddr : Option IPv4
  leaseTimeOpt : Int
deriving Repr, DecidableEq

/-- Outcome of one `Handler4` call: the returned response (or `nil`),
the returned boolean, and the records passed to `SaveIPAddress`
during the call, in order. -/
structure Handler4Result where
  resp : Option Resp
  stop : Bool
  saves : List Record
deriving Repr, DecidableEq

/-- `PluginState` from `plugin.go`: the lease time (nanoseconds) and
the storage provider.  The allocator is external (coredhcp's bitmap
allocator); its calls are passed to `Handler4` as explicit results. -/
structure PluginState where
  LeaseTime : Int
  storage : RedisProvider

/-- `PluginState.Handler4` from `plugin.go` (lines 47–85).
`alloc` is the result of `p.allocator.Allocate(net.IPNet{})` (the
allocator returns an in-range IPv4, so `ip.IP.To4()` is the identity
on our model); `saveRes` is the result of the one `SaveIPAddress`
call a run may make — the code only logs it, so the control flow
never depends on it; `now` is `time.Now()` (the two `time.Now()`
calls of the renewal branch are the same logical instant).
On a `GetRecord` error: return `(nil, true)`.  If the record's IP is
`nil`: allocate; on error return `(nil, true)`, else build a record
expiring at `now + LeaseTime`, save it (failure logged only).
Otherwise, if `Expires` is strictly before `now + LeaseTime`: set
`Expires` to `(now + LeaseTime).Round(time.Second)` and save (failure
logged only).  Finally answer with the record's IP and the rounded
lease time, returning `false`. -/
def PluginState.Handler4 (p : PluginState) (alloc : Except String IPv4)
    (saveRes : Except String Unit) (now : Int) (mac : String) :
    Handler4Result :=
  match p.storage.GetRecord mac with
  | .error _ => { resp := none, stop := true, saves := [] }
  | .ok record =>
    match record.IP with
    | none =>
      match alloc with
      | .error _ => { resp := none, stop := true, saves := [] }
      | .ok ip =>
        let newRec : Record := { IP := some ip, Expires := now + p.LeaseTime }
        let _ := saveRes
        { resp := some { YourIPAddr := newRec.IP
                         leaseTimeOpt := durRound p.LeaseTime nsPerSecond }
          stop := false
          saves := [newRec] }
    | some _ =>
      if record.Expires < now + p.LeaseTime then
        let renewed : Record :=
          { record with Expires := timeRound (now + p.LeaseTime) nsPerSecond }
        let _ := saveRes
        { resp := some { YourIPAddr := renewed.IP
                         leaseTimeOpt := durRound p.LeaseTime nsPerSecond }
          stop := false
          saves := [renewed] }
      else
        { resp := some { YourIPAddr := record.IP
                         leaseTimeOpt := durRound p.LeaseTime nsPerSecond }
          stop := false
          saves := [] }

section Reconcile

variable {σ : Type}

/-- The startup reconciliation loop of `setup4` (`plugin.go` lines
134–141): for each loaded record, `Allocate(net.IPNet{IP: v.IP})`;
an allocator error aborts with an error, and so does a returned
address whose string form differs from the requested one (for valid
4-byte addresses, string equality is value equality).  `alloc` is the
external bitmap allocator, threaded as explicit state `σ`. -/
def reconcile (alloc : σ → Option IPv4 → Except String (IPv4 × σ)) :
    σ → List Record → Except String σ
  | s, [] => .ok s
  | s, v :: rest =>
    match alloc s v.IP with
    | .error e => .error ("failed to re-allocate leased ip: " ++ e)
    | .ok (ip, s2) =>
      if v.IP ≠ some ip then
        .error "allocator did not re-allocate requested leased ip"
      else
        reconcile alloc s2 rest

/-- The tail of `setup4` after storage init (`plugin.go` lines
127–142): `GetAllRecords`, aborting setup on its error, then the
reconciliation loop, aborting setup on any of its failures.  An
`.error` result models `setup4` returning `(nil, err)` — no handler
is installed; `.ok` carries the allocator state of the installed
handler's plugin. -/
def setup4FromRecords (alloc : σ → Option IPv4 → Except String (IPv4 × σ))
    (s0 : σ) (recordsResult : Except StoreErr (List Record)) :
    Except String σ :=
  match recordsResult with
  | .error _ => .error "could not load records"
  | .ok records => reconcile alloc s0 records

/-- Success of the reconciliation loop, step by step: every record's
address was requested from the allocator, the call succeeded and
returned exactly the requested address. -/
inductive ReconcileOk (alloc : σ → Option IPv4 → Except String (IPv4 × σ)) :
    σ → List Record → σ → Prop where
  | nil (s : σ) : ReconcileOk alloc s [] s
  | cons (s s2 sf : σ) (v : Record) (ip : IPv4) (rest : List Record)
      (hstep : alloc s v.IP = .ok (ip, s2))
      (hmatch : v.IP = some ip)
      (htail : ReconcileOk alloc s2 rest sf) :
      ReconcileOk alloc s (v :: rest) sf

end Reconcile

/-- What the expiry-reconciler loop does with one expiration event
(`plugin.go` lines 149–172): skip it, drop it after a failed step, or
free the recovered record's address. -/
inductive ExpiryOutcome where
  | ignored
  | dropGet (e : StoreErr)
  | dropFree (ip : Option IPv4) (e : String)
  | freed (mac : String) (ip : Option IPv4)
deriving Repr, DecidableEq

/-- The body of the expiry-reconciler loop in `setup4` (`plugin.go`
lines 149–172), for one event payload: if the payload does not start
with the shadow-key constant `shadowPfx` (`REDIS_SHADOW_KEY_PREFIX`),
`continue` — no store read, no free; otherwise strip it to get the
MAC, `GetRecord`, on error log and `continue`; then
`Free(net.IPNet{IP: record.IP, ...})` on the external allocator
(`free`, which may receive a `nil` IP when the data key is already
gone), on error log and `continue`. -/
def processExpiry (r : RedisProvider)
    (free : Option IPv4 → Except String Unit) (shadowPfx : String)
    (payload : String) : ExpiryOutcome :=
  if ¬ payload.startsWith shadowPfx then .ignored
  else
    let mac := payload.drop shadowPfx.length
    match r.GetRecord mac with
    | .error e => .dropGet e
    | .ok record =>
      match free record.IP with
      | .error e => .dropFree record.IP e
      | .ok _ => .freed mac record.IP

/-- The expiry-reconciler loop over the sequence of events delivered
on the subscription channel: each event is handled independently by
`processExpiry`. -/
def expiryLoop (r : RedisProvider)
    (free : Option IPv4 → Except String Unit) (shadowPfx : String) :
    List String → List ExpiryOutcome
  | [] => []
  | payload :: rest =>
    processExpiry r free shadowPfx payload :: expiryLoop r free shadowPfx rest

/-- One write issued against the TTL store: key, payload (`none` is an
empty sentinel payload), and the absolute expiry timestamp the write
establishes. -/
structure StoreWrite where
  key : String
  payload : Option String
  expiresAt : Int
deriving Repr, DecidableEq

/-- Modelled from the spec: the grace period of the sentinel-based
save — "a fixed short constant, e.g. 10 seconds" (§4.1).  The storage
wired via `InitStorage` is not under `src/`. -/
def gracePeriod : Int := 10 * nsPerSecond

/-- Modelled from the spec: the `save` of the sentinel-based Lease
Store (§4.1), whose source file is not under `src/` — `plugin.go`
references it through `InitStorage`, `SubExp` and
`REDIS_SHADOW_KEY_PREFIX`, but only the simpler direct-TTL draft
(`storage.go`) is present.  Per §4.1 it writes the record keyed by
the client identifier, expiring at `record.expiresAt + gracePeriod`,
and an empty-payload sentinel under the shadow prefix, expiring
exactly at `record.expiresAt`. -/
def saveWithSentinel (pfx shadowPfx : String) (marshal : Record → String)
    (mac : String) (rec0 : Record) : List StoreWrite :=
  [ { key := pfx ++ mac
      payload := some (marshal rec0)
      expiresAt := rec0.Expires + gracePeriod }
  , { key := shadowPfx ++ mac
      payload := none
      expiresAt := rec0.Expires } ]

/-- Split a character list at every dot, like `strings.Split` on
`"."`: the empty input yields one empty group. -/
def splitOnDot : List Char → List (List Char)
  | [] => [[]]
  | c :: rest =>
    if c = '.' then [] :: splitOnDot rest
    else
      match splitOnDot rest with
      | [] => [[c]]
      | g :: gs => (c :: g) :: gs

/-- Decimal value of a digit list. -/
def digitsToNat (cs : List Char) : Nat :=
  cs.foldl (fun n c => n * 10 + (c.toNat - 48)) 0

/-- One decimal octet of a dotted-quad IPv4 address, as accepted by
Go's `net.ParseIP` v4 path: one to three digits, no leading zero,
value at most 255. -/
def parseOctet (cs : List Char) : Option Nat :=
  if cs.length = 0 ∨ 3 < cs.length then none
  else if ¬ cs.all Char.isDigit then none
  else if 1 < cs.length ∧ cs.headD 'x' = '0' then none
  else
    let n := digitsToNat cs
    if n ≤ 255 then some n else none

/-- Embedding of `net.ParseIP(s).To4()` restricted to its dotted-quad
branch, returning the big-endian 32-bit value: four octets separated
by dots.  Strings containing a colon take Go's IPv6 branch, on which
`To4()` is `nil` except for IPv4-mapped forms such as
`::ffff:1.2.3.4`; that mapped corner is outside the modelled
fragment and is returned as `none` here. -/
def parseIPv4 (s : String) : Option IPv4 :=
  if s.data.contains ':' then none
  else
    match splitOnDot s.data with
    | [a, b, c, d] =>
      match parseOctet a, parseOctet b, parseOctet c, parseOctet d with
      | some x, some y, some z, some w =>
        some (x * 2 ^ 24 + y * 2 ^ 16 + z * 2 ^ 8 + w)
      | _, _, _, _ => none
    | _ => none

/-- Go `time.unitMap`: nanoseconds per unit suffix. -/
def unitMap : String → Option Nat
  | "ns" => some 1
  | "us" => some 1000
  | "µs" => some 1000
  | "μs" => some 1000
  | "ms" => some 1000000
  | "s" => some 1000000000
  | "m" => some 60000000000
  | "h" => some 3600000000000
  | _ => none

/-- Go `time.leadingInt`: consume leading digits into `x`, failing on
overflow past `1<<63` (checked as in the source: `x > 1<<63/10`
before the multiply, `x > 1<<63` after). -/
def leadingInt (x : Nat) : List Char → Option (Nat × List Char)
  | [] => some (x, [])
  | c :: rest =>
    if c.isDigit then
      if x > 2 ^ 63 / 10 then none
      else
        let x2 := x * 10 + (c.toNat - 48)
        if x2 > 2 ^ 63 then none
        else leadingInt x2 rest
    else some (x, c :: rest)

/-- The iteration of `time.ParseDuration`'s main loop, fuelled by the
remaining character count (each Go iteration consumes at least one
character, so `length + 1` fuel never runs out on inputs Go accepts):
read a leading integer `v` (required — Go also accepts a bare
fraction, but the fractional branch, computed in `float64` by the
source, is outside the modelled fragment, so a decimal point fails
here), then a non-empty unit suffix looked up in `unitMap`, with the
source's `1<<63` overflow checks on `v * unit` and on the running
sum. -/
def parseDurLoop : Nat → Nat → List Char → Option Nat
  | 0, _, _ => none
  | _ + 1, d, [] => some d
  | fuel + 1, d, c :: rest =>
    if ¬ (c = '.' ∨ c.isDigit) then none
    else
      match leadingInt 0 (c :: rest) with
      | none => none
      | some (v, s2) =>
        if s2.length = (c :: rest).length then none
        else
          match s2 with
          | '.' :: _ => none
          | _ =>
            let unitChars := s2.takeWhile (fun ch => ¬ (ch = '.' ∨ ch.isDigit))
            let s3 := s2.drop unitChars.length
            if unitChars.length = 0 then none
            else
              match unitMap (String.mk unitChars) with
              | none => none
              | some unit =>
                if v > 2 ^ 63 / unit then none
                else
                  let v2 := v * unit
                  let d2 := d + v2
                  if d2 > 2 ^ 63 then none
                  else parseDurLoop fuel d2 s3

/-- Embedding of Go `time.ParseDuration` on its integer fragment
(durations without a decimal point; the fractional branch uses
`float64` in the source and is outside the modelled fragment):
optional sign, the special case `"0"`, then repeated
number-and-unit groups; a negative sign negates the accumulated
total, and a positive total above `1<<63 - 1` is an overflow
error. -/
def goParseDuration (s : String) : Option Int :=
  let cs := s.data
  let signed : Bool × List Char :=
    match cs with
    | c :: rest =>
      if c = '-' then (true, rest)
      else if c = '+' then (false, rest)
      else (false, cs)
    | [] => (false, [])
  let neg := signed.1
  let cs2 := signed.2
  if cs2 = ['0'] then some 0
  else if cs2 = [] then none
  else
    match parseDurLoop (cs2.length + 1) 0 cs2 with
    | none => none
    | some d =>
      if neg then some (-(d : Int))
      else if (d : Int) > 2 ^ 63 - 1 then none
      else some ((d : Int))

/-- The configuration assembled by `setup4`'s argument validation:
URI, range endpoints as 32-bit values, lease time in nanoseconds. -/
structure Config where
  uri : String
  startIP : IPv4
  endIP : IPv4
  LeaseTime : Int
deriving Repr, DecidableEq

/-- The argument-validation phase of `setup4` (`plugin.go` lines
93–120): fewer than 4 arguments, an empty URI, an endpoint on which
`net.ParseIP(arg).To4()` is `nil`, a start not strictly below the end
(compared as `binary.BigEndian.Uint32` of the 4 bytes), or a lease
duration `time.ParseDuration` rejects, each abort setup with an
error.  The construction of the external bitmap allocator (between
the range check and the duration parse in the source) and the storage
connection are external effects elided here; `setup4FromRecords`
models the reconciliation tail. -/
def setup4Validate (args : List String) : Except String Config :=
  match args with
  | uri :: a1 :: a2 :: a3 :: _ =>
    if uri = "" then .error "uri cannot be empty"
    else
      match parseIPv4 a1 with
      | none => .error ("invalid IPv4 address: " ++ a1)
      | some ipStart =>
        match parseIPv4 a2 with
        | none => .error ("invalid IPv4 address: " ++ a2)
        | some ipEnd =>
          if ipStart ≥ ipEnd then
            .error "start of IP range has to be lower than the end of an IP range"
          else
            match goParseDuration a3 with
            | none => .error ("invalid lease duration: " ++ a3)
            | some lt =>
              .ok { uri := uri, startIP := ipStart, endIP := ipEnd, LeaseTime := lt }
  | _ => .error "invalid number of arguments, want: 4"

/-! Helper lemmas on the Go rounding operations. -/

/-- A duration below half a second rounds to a non-positive number of
seconds under `Duration.Round(time.Second)`. -/
theorem durRound_nonpos_of_lt_half (d : Int) (h : d < 500000000) :
    durRound d nsPerSecond ≤ 0 := by
  have h63 : (2 : Int) ^ 63 = 9223372036854775808 := by norm_num
  simp only [durRound, goMod, nsPerSecond, minDuration, maxDuration, h63]
  split_ifs <;> omega

/-- `Time.Round(time.Second)` moves a timestamp down by less than half
a second at most. -/
theorem timeRound_sub_half_le (t : Int) :
    t - 500000000 ≤ timeRound t nsPerSecond := by
  simp only [timeRound, nsPerSecond]
  split_ifs <;> omega

/-- C10: `SaveIPAddress` computes the stored key's TTL as the time
remaining until `record.Expires`, rounded to the nearest whole second
at call time; hence a record whose `Expires` lies less than half a
second in the future (or in the past) gets a TTL that is zero or
negative — not a finite positive expiry at `Expires`. -/
theorem saveIPAddress_ttl_nonpos_near_expiry (r : RedisProvider)
    (marshal : Record → String) (now : Int) (mac : String) (rec0 : Record)
    (h : rec0.Expires - now < 500000000) :
    (r.SaveIPAddress marshal now mac rec0).ttl
      = durRound (rec0.Expires - now) nsPerSecond ∧
    (r.SaveIPAddress marshal now mac rec0).ttl ≤ 0 :=
  ⟨rfl, durRound_nonpos_of_lt_half _ h⟩

/-- A provider with an absent key, for witnesses. -/
def wProvider : RedisProvider :=
  { fetch := fun _ => .nilReply
    keysReply := .nilReply
    unmarshal := fun _ => none
    Pfx := "mac:" }

/-- A trivial serializer standing for `json.Marshal` in witnesses. -/
def wMarshal : Record → String := fun _ => "{}"

/-- Witness for C10 at `Expires = 100 ns`, `now = 0`. -/
theorem saveIPAddress_ttl_nonpos_near_expiry_witness :
    (wProvider.SaveIPAddress wMarshal 0 "aa"
        { IP := some 5, Expires := 100 }).ttl ≤ 0 :=
  (saveIPAddress_ttl_nonpos_near_expiry wProvider wMarshal 0 "aa"
    { IP := some 5, Expires := 100 } (by decide)).2

/-- C1: every record saved through the sentinel-based `save` issues
exactly two writes: the data entry carrying the serialized record and
expiring at `Expires + gracePeriod`, and an empty-payload sentinel
under the shadow prefix expiring exactly at `Expires`; the sentinel's
expiry timestamp is strictly earlier than the data entry's. -/
theorem saveWithSentinel_grace_ordering (pfx shadowPfx : String)
    (marshal : Record → String) (mac : String) (rec0 : Record) :
    ∃ dataW sentinelW,
      saveWithSentinel pfx shadowPfx marshal mac rec0 = [dataW, sentinelW] ∧
      dataW.key = pfx ++ mac ∧
      dataW.payload = some (marshal rec0) ∧
      dataW.expiresAt = rec0.Expires + gracePeriod ∧
      sentinelW.key = shadowPfx ++ mac ∧
      sentinelW.payload = none ∧
      sentinelW.expiresAt = rec0.Expires ∧
      sentinelW.expiresAt < dataW.expiresAt := by
  refine ⟨_, _, rfl, rfl, rfl, rfl, rfl, rfl, rfl, ?_⟩
  show rec0.Expires < rec0.Expires + gracePeriod
  have : (0 : Int) < gracePeriod := by decide
  omega

/-- C6: `GetRecord` returns the zero record with no error when the
key is absent (`redis.Nil`), and an error only when the store read
itself failed (transport) or the stored payload did not unmarshal
(corruption). -/
theorem getRecord_not_found_and_errors (r : RedisProvider) (mac : String) :
    (r.fetch (r.Pfx ++ mac) = .nilReply → r.GetRecord mac = .ok zeroRecord) ∧
    (∀ e, r.GetRecord mac = .error e →
      (∃ msg, r.fetch (r.Pfx ++ mac) = .errReply msg ∧ e = .transport msg) ∨
      (∃ s, r.fetch (r.Pfx ++ mac) = .value s ∧ r.unmarshal s = none ∧
        e = .corrupt)) := by
  constructor
  · intro hfetch
    simp [RedisProvider.GetRecord, hfetch]
  · intro e herr
    unfold RedisProvider.GetRecord at herr
    split at herr
    · exact absurd herr (by simp)
    · next msg hf =>
        exact Or.inl ⟨msg, hf, by simpa using herr.symm⟩
    · next s hf =>
        refine Or.inr ?_
        split at herr
        · next hu => exact ⟨s, hf, hu, by simpa using herr.symm⟩
        · exact absurd herr (by simp)

/-- Witness for C6: an absent key yields the zero record. -/
theorem getRecord_not_found_witness :
    wProvider.GetRecord "aa" = .ok zeroRecord :=
  (getRecord_not_found_and_errors wProvider "aa").1 rfl

/-- C7: with an enumerable key set, `GetAllRecords` itself never
fails; every returned record has a non-nil IP; a key whose read
errors (vanished, transport, corrupt) or whose record has a nil IP is
skipped without affecting the rest; a key with a readable non-nil
record contributes exactly that record. -/
theorem getAllRecords_skips_and_nonzero (r : RedisProvider) :
    (∀ ks, r.keysReply = .keys ks → r.GetAllRecords = .ok (getAllLoop r ks)) ∧
    (∀ ks rec0, rec0 ∈ getAllLoop r ks → rec0.IP ≠ none) ∧
    (∀ key rest,
      ((∃ e, r.GetRecord (key.drop r.Pfx.length) = .error e) ∨
        (∃ rec0, r.GetRecord (key.drop r.Pfx.length) = .ok rec0 ∧
          rec0.IP = none)) →
      getAllLoop r (key :: rest) = getAllLoop r rest) ∧
    (∀ key rest rec0 ip, r.GetRecord (key.drop r.Pfx.length) = .ok rec0 →
      rec0.IP = some ip →
      getAllLoop r (key :: rest) = rec0 :: getAllLoop r rest) := by
  refine ⟨?_, ?_, ?_, ?_⟩
  · intro ks hk
    simp [RedisProvider.GetAllRecords, hk]
  · intro ks
    induction ks with
    | nil => intro rec0 h; simp [getAllLoop] at h
    | cons key rest ih =>
      intro rec0 h
      simp only [getAllLoop] at h
      rcases hg : r.GetRecord (key.drop r.Pfx.length) with e | rec1 <;>
        simp only [hg] at h
      · exact ih rec0 h
      · rcases hip : rec1.IP with _ | ip <;> simp only [hip] at h
        · exact ih rec0 h
        · rcases List.mem_cons.mp h with heq | hmem
          · subst heq; simp [hip]
          · exact ih rec0 hmem
  · intro key rest hskip
    rcases hskip with ⟨e, hg⟩ | ⟨rec0, hg, hip⟩
    · simp only [getAllLoop, hg]
    · simp only [getAllLoop, hg, hip]
  · intro key rest rec0 ip hg hip
    simp only [getAllLoop, hg, hip]

/-- A provider enumerating one key whose record is already gone, for
the C7 witness. -/
def wKeysProvider : RedisProvider :=
  { fetch := fun _ => .nilReply
    keysReply := .keys ["mac:aa"]
    unmarshal := fun _ => none
    Pfx := "mac:" }

/-- Witness for C7: the enumerated-but-vanished key is skipped and
`GetAllRecords` still succeeds, with an empty result. -/
theorem getAllRecords_skips_witness :
    wKeysProvider.GetAllRecords = .ok [] :=
  (getAllRecords_skips_and_nonzero wKeysProvider).1 ["mac:aa"] rfl

/-- C5: on a request with no existing lease (nil-IP record), a
successful `Allocate` yields a record expiring at `now + LeaseTime`
which is passed to `SaveIPAddress`, and the response serves the
just-allocated address with the returned flag `false` — for every
persistence outcome `saveRes`, so a failed save still serves the
address. -/
theorem handler4_new_lease (p : PluginState) (ip : IPv4)
    (saveRes : Except String Unit) (now : Int) (mac : String)
    (record : Record)
    (hget : p.storage.GetRecord mac = .ok record)
    (hnone : record.IP = none) :
    p.Handler4 (.ok ip) saveRes now mac =
      { resp := some { YourIPAddr := some ip
                       leaseTimeOpt := durRound p.LeaseTime nsPerSecond }
        stop := false
        saves := [{ IP := some ip, Expires := now + p.LeaseTime }] } := by
  simp only [PluginState.Handler4, hget, hnone]

/-- A plugin state whose store has no record for any client, for the
C5 witness: lease time 60 s. -/
def wEmptyState : PluginState :=
  { LeaseTime := 60000000000, storage := wProvider }

/-- Witness for C5 at a failed persistence (`saveRes = .error`): the
fresh address 7 is still served. -/
theorem handler4_new_lease_witness :
    wEmptyState.Handler4 (.ok 7) (.error "conn reset") 0 "aa" =
      { resp := some { YourIPAddr := some 7
                       leaseTimeOpt := durRound 60000000000 nsPerSecond }
        stop := false
        saves := [{ IP := some 7, Expires := 60000000000 }] } :=
  handler4_new_lease wEmptyState 7 (.error "conn reset") 0 "aa"
    zeroRecord rfl rfl

/-- C4 (amended): on a request whose record exists with a non-nil IP,
if `Expires` is strictly before `now + LeaseTime` the handler
persists the record with `Expires` set to `now + LeaseTime` rounded
to the nearest whole second — not `now + LeaseTime` itself — so the
new expiry is guaranteed at least the old one only when the old
expiry is at most `now + LeaseTime` minus half a second; if no
renewal is needed the record is served as-is with no store write. -/
theorem handler4_renewal (p : PluginState) (alloc : Except String IPv4)
    (saveRes : Except String Unit) (now : Int) (mac : String)
    (record : Record) (ip : IPv4)
    (hget : p.storage.GetRecord mac = .ok record)
    (hip : record.IP = some ip) :
    (record.Expires < now + p.LeaseTime →
      p.Handler4 alloc saveRes now mac =
        { resp := some { YourIPAddr := some ip
                         leaseTimeOpt := durRound p.LeaseTime nsPerSecond }
          stop := false
          saves := [{ IP := some ip
                      Expires := timeRound (now + p.LeaseTime) nsPerSecond }] } ∧
      (record.Expires ≤ now + p.LeaseTime - 500000000 →
        record.Expires ≤ timeRound (now + p.LeaseTime) nsPerSecond)) ∧
    (¬ record.Expires < now + p.LeaseTime →
      p.Handler4 alloc saveRes now mac =
        { resp := some { YourIPAddr := some ip
                         leaseTimeOpt := durRound p.LeaseTime nsPerSecond }
          stop := false
          saves := [] }) := by
  constructor
  · intro hlt
    constructor
    · simp only [PluginState.Handler4, hget, hip, if_pos hlt]
    · intro hold
      have := timeRound_sub_half_le (now + p.LeaseTime)
      omega
  · intro hge
    simp only [PluginState.Handler4, hget, hip, if_neg hge]

/-- A store holding a record for IP 5 expiring at 1.3 s, for the C4
witness and counterexample. -/
def wRenewProvider : RedisProvider :=
  { fetch := fun _ => .value "stored"
    keysReply := .nilReply
    unmarshal := fun _ => some { IP := some 5, Expires := 1300000000 }
    Pfx := "mac:" }

/-- Plugin state over `wRenewProvider` with lease time 1.4 s. -/
def wRenewState : PluginState :=
  { LeaseTime := 1400000000, storage := wRenewProvider }

/-- Plugin state over `wRenewProvider` with lease time 60 s, for the
C4 witness. -/
def wRenewState60 : PluginState :=
  { LeaseTime := 60000000000, storage := wRenewProvider }

/-- Witness for C4: at lease time 60 s the record is renewed to the
rounded `now + LeaseTime` and that does not decrease the expiry. -/
theorem handler4_renewal_witness :
    wRenewState60.Handler4 (.ok 9) (.ok ()) 0 "aa" =
      { resp := some { YourIPAddr := some 5
                       leaseTimeOpt := durRound 60000000000 nsPerSecond }
        stop := false
        saves := [{ IP := some 5
                    Expires := timeRound 60000000000 nsPerSecond }] } ∧
    (1300000000 : Int) ≤ timeRound 60000000000 nsPerSecond := by
  have h := handler4_renewal wRenewState60 (.ok 9) (.ok ()) 0 "aa"
    { IP := some 5, Expires := 1300000000 } 5 rfl rfl
  have h1 := h.1 (by decide)
  exact ⟨h1.1, h1.2 (by decide)⟩

/-- Counterexample to C4 as stated: with
lease time 1.4 s and an existing record expiring at 1.3 s, the
renewal persists `Expires = 1 s` — not `now + LeaseTime = 1.4 s`, and
strictly below the old 1.3 s. -/
theorem handler4_renewal_cex :
    (wRenewState.Handler4 (.ok 9) (.ok ()) 0 "aa").saves =
      [{ IP := some 5, Expires := 1000000000 }] ∧
    (1000000000 : Int) < 1300000000 ∧
    (1000000000 : Int) ≠ 0 + 1400000000 := by
  refine ⟨?_, by decide, by decide⟩
  decide

/-- C3 (amended): the handler's returned boolean is `true` exactly
when no response is produced; a lookup error and an allocation error
each yield `(nil, true)` with no store write, terminating the chain;
a produced response always carries a non-nil assigned address and
comes with the boolean `false`, which — as the file's own `Handler6`
comment states — lets the next plugin in the chain run. -/
theorem handler4_chain_flag (p : PluginState) (alloc : Except String IPv4)
    (saveRes : Except String Unit) (now : Int) (mac : String) :
    ((p.Handler4 alloc saveRes now mac).stop = true ↔
      (p.Handler4 alloc saveRes now mac).resp = none) ∧
    (∀ e, p.storage.GetRecord mac = .error e →
      p.Handler4 alloc saveRes now mac =
        { resp := none, stop := true, saves := [] }) ∧
    (∀ record e2, p.storage.GetRecord mac = .ok record → record.IP = none →
      alloc = .error e2 →
      p.Handler4 alloc saveRes now mac =
        { resp := none, stop := true, saves := [] }) ∧
    (∀ r2, (p.Handler4 alloc saveRes now mac).resp = some r2 →
      (p.Handler4 alloc saveRes now mac).stop = false ∧
      r2.YourIPAddr ≠ none) := by
  refine ⟨?_, ?_, ?_, ?_⟩
  · unfold PluginState.Handler4
    rcases hget : p.storage.GetRecord mac with e | record
    · simp
    · rcases hip : record.IP with _ | ip
      · rcases alloc with e2 | ip2 <;> simp [hip]
      · by_cases hlt : record.Expires < now + p.LeaseTime <;>
          simp [hlt, hip]
  · intro e hget
    simp only [PluginState.Handler4, hget]
  · intro record e2 hget hnone halloc
    simp only [PluginState.Handler4, hget, hnone, halloc]
  · intro r2 hresp
    unfold PluginState.Handler4 at hresp ⊢
    rcases hget : p.storage.GetRecord mac with e | record <;>
      simp only [hget] at hresp ⊢
    · simp at hresp
    · rcases hip : record.IP with _ | ip <;> simp only [hip] at hresp ⊢
      · rcases alloc with e2 | ip2 <;> simp only [] at hresp ⊢
        · simp at hresp
        · simp at hresp ⊢
          subst hresp
          simp
      · by_cases hlt : record.Expires < now + p.LeaseTime <;>
          simp only [if_pos, if_neg, hlt, if_true, if_false] at hresp ⊢ <;>
          simp at hresp ⊢ <;> subst hresp <;> simp [hip]

/-- A plugin state whose store lookup always fails with a transport
error, for C3. -/
def wFailState : PluginState :=
  { LeaseTime := 60000000000
    storage :=
      { fetch := fun _ => .errReply "connection refused"
        keysReply := .nilReply
        unmarshal := fun _ => none
        Pfx := "mac:" } }

/-- Counterexample to C3 as stated: on a lookup failure the handler's
returned boolean is `true`, not `false` — and, dually, on success it
returns `false`, which the file's `Handler6` comment documents as
"the next plugin in the chain will be called", not as chain
termination. -/
theorem handler4_stop_flag_cex :
    (wFailState.Handler4 (.ok 1) (.ok ()) 0 "aa").stop ≠ false ∧
    (wEmptyState.Handler4 (.ok 7) (.ok ()) 0 "aa").stop = false := by
  constructor <;> decide

/-- Witness for C3 at a concrete failing lookup. -/
theorem handler4_chain_flag_witness :
    wFailState.Handler4 (.ok 1) (.ok ()) 0 "aa" =
      { resp := none, stop := true, saves := [] } :=
  (handler4_chain_flag wFailState (.ok 1) (.ok ()) 0 "aa").2.1
    (.transport "connection refused") rfl

/-- C2: the setup tail succeeds exactly when every loaded record's
address was requested from the allocator and each call succeeded,
returning precisely the requested address (`ReconcileOk`); an
allocator error or a mismatched returned address at any record's step
makes the loop — and hence setup — return an error, so no handler is
installed; a `GetAllRecords` failure aborts setup as well. -/
theorem setup4_reconciliation_fail_fast {σ : Type}
    (alloc : σ → Option IPv4 → Except String (IPv4 × σ)) (s0 : σ)
    (records : List Record) :
    ((∃ sf, setup4FromRecords alloc s0 (.ok records) = .ok sf) ↔
      (∃ sf, ReconcileOk alloc s0 records sf)) ∧
    (∀ s v rest e, alloc s v.IP = .error e →
      ∃ msg, reconcile alloc s (v :: rest) = .error msg) ∧
    (∀ s v rest ip s2, alloc s v.IP = .ok (ip, s2) → v.IP ≠ some ip →
      ∃ msg, reconcile alloc s (v :: rest) = .error msg) ∧
    (∀ e, ∃ msg, setup4FromRecords alloc s0 (.error e) = .error msg) := by
  refine ⟨?_, ?_, ?_, fun e => ⟨_, rfl⟩⟩
  · show (∃ sf, reconcile alloc s0 records = .ok sf) ↔ _
    constructor
    · rintro ⟨sf, hok⟩
      refine ⟨sf, ?_⟩
      induction records generalizing s0 with
      | nil =>
        simp only [reconcile] at hok
        cases hok
        exact .nil sf
      | cons v rest ih =>
        simp only [reconcile] at hok
        rcases ha : alloc s0 v.IP with e | ⟨ip, s2⟩ <;> simp only [ha] at hok
        · simp at hok
        · by_cases hm : v.IP ≠ some ip
          · simp [hm] at hok
          · rw [if_neg (by simpa using hm)] at hok
            exact .cons s0 s2 sf v ip rest ha (by simpa using hm) (ih s2 hok)
    · rintro ⟨sf, hr⟩
      refine ⟨sf, ?_⟩
      induction hr with
      | nil s => rfl
      | cons s s2 sf v ip rest hstep hmatch htail ihtail =>
        simp only [reconcile, hstep]
        rw [if_neg (by simp [hmatch])]
        exact ihtail
  · intro s v rest e ha
    exact ⟨"failed to re-allocate leased ip: " ++ e,
      by simp only [reconcile, ha]⟩
  · intro s v rest ip s2 ha hm
    exact ⟨"allocator did not re-allocate requested leased ip",
      by simp only [reconcile, ha, if_pos hm]⟩

/-- An allocator over a list-of-allocated-addresses state that grants
every specific request, for the C2 witness. -/
def wAllocGrant : List IPv4 → Option IPv4 → Except String (IPv4 × List IPv4) :=
  fun s req =>
    match req with
    | some ip => .ok (ip, ip :: s)
    | none => .error "no address requested"

/-- An allocator that always reports exhaustion, for the C2 witness. -/
def wAllocFail : List IPv4 → Option IPv4 → Except String (IPv4 × List IPv4) :=
  fun _ _ => .error "exhausted"

/-- Witness for C2: a failing allocator step on a concrete record
makes the reconciliation loop return an error. -/
theorem setup4_reconciliation_fail_fast_witness :
    ∃ msg, reconcile wAllocFail [] [{ IP := some 3, Expires := 0 }] =
      .error msg :=
  (setup4_reconciliation_fail_fast wAllocFail [] []).2.1 []
    { IP := some 3, Expires := 0 } [] "exhausted" rfl

/-- C8: an event without the shadow-key leader is ignored — for every
store and allocator, so no store read and no free happens; a matching
event has the MAC extracted by stripping that leader, the record
fetched, and its address freed; a failed fetch or a failed free drops
just that event; and the loop handles each event of the feed
independently of the preceding ones. -/
theorem expiry_reconciler_behavior (r : RedisProvider)
    (free : Option IPv4 → Except String Unit) (shadowPfx : String)
    (payload : String) :
    (¬ payload.startsWith shadowPfx →
      ∀ (r2 : RedisProvider) (free2 : Option IPv4 → Except String Unit),
        processExpiry r2 free2 shadowPfx payload = .ignored) ∧
    (payload.startsWith shadowPfx →
      (∀ e, r.GetRecord (payload.drop shadowPfx.length) = .error e →
        processExpiry r free shadowPfx payload = .dropGet e) ∧
      (∀ record, r.GetRecord (payload.drop shadowPfx.length) = .ok record →
        (∀ e, free record.IP = .error e →
          processExpiry r free shadowPfx payload = .dropFree record.IP e) ∧
        (free record.IP = .ok () →
          processExpiry r free shadowPfx payload =
            .freed (payload.drop shadowPfx.length) record.IP))) ∧
    (∀ events, expiryLoop r free shadowPfx (payload :: events) =
      processExpiry r free shadowPfx payload ::
        expiryLoop r free shadowPfx events) := by
  refine ⟨?_, ?_, fun events => rfl⟩
  · intro hno r2 free2
    simp only [processExpiry, if_pos hno]
  · intro hyes
    constructor
    · intro e hget
      simp only [processExpiry, hyes, not_true, if_neg, hget]
      simp
    · intro record hget
      constructor
      · intro e hfree
        simp only [processExpiry, hyes, hget, hfree]
        simp
      · intro hfree
        simp only [processExpiry, hyes, hget, hfree]
        simp

/-- Witness for C8: a payload from an unrelated namespace is ignored
for every store and allocator; picking concrete ones. -/
theorem expiry_reconciler_behavior_witness :
    processExpiry wProvider (fun _ => .ok ()) "shadowmac:" "other:key" =
      .ignored :=
  (expiry_reconciler_behavior wProvider (fun _ => .ok ()) "shadowmac:"
    "other:key").1 (by decide) wProvider (fun _ => .ok ())

/-- C9 (amended): setup's validation fails — no configuration is
produced — when fewer than 4 arguments are given, the URI is empty,
either range endpoint is not a valid IPv4 address, the start is not
strictly below the end, or the lease-duration string is one
`time.ParseDuration` rejects; but any parseable duration is accepted
unchanged, with no positivity check, so a zero or negative lease
duration does not abort setup. -/
theorem setup4_validation (uri a1 a2 a3 : String) (rest : List String) :
    (∀ args : List String, args.length < 4 →
      ∀ cfg, setup4Validate args ≠ .ok cfg) ∧
    (uri = "" →
      ∀ cfg, setup4Validate (uri :: a1 :: a2 :: a3 :: rest) ≠ .ok cfg) ∧
    (parseIPv4 a1 = none →
      ∀ cfg, setup4Validate (uri :: a1 :: a2 :: a3 :: rest) ≠ .ok cfg) ∧
    (parseIPv4 a2 = none →
      ∀ cfg, setup4Validate (uri :: a1 :: a2 :: a3 :: rest) ≠ .ok cfg) ∧
    (∀ s e, parseIPv4 a1 = some s → parseIPv4 a2 = some e → s ≥ e →
      ∀ cfg, setup4Validate (uri :: a1 :: a2 :: a3 :: rest) ≠ .ok cfg) ∧
    (goParseDuration a3 = none →
      ∀ cfg, setup4Validate (uri :: a1 :: a2 :: a3 :: rest) ≠ .ok cfg) ∧
    (∀ s e d, uri ≠ "" → parseIPv4 a1 = some s → parseIPv4 a2 = some e →
      s < e → goParseDuration a3 = some d →
      setup4Validate (uri :: a1 :: a2 :: a3 :: rest) =
        .ok { uri := uri, startIP := s, endIP := e, LeaseTime := d }) := by
  refine ⟨?_, ?_, ?_, ?_, ?_, ?_, ?_⟩
  · intro args hlen cfg hok
    rcases args with _ | ⟨u, _ | ⟨b, _ | ⟨c, _ | ⟨d, rest2⟩⟩⟩⟩
    · simp [setup4Validate] at hok
    · simp [setup4Validate] at hok
    · simp [setup4Validate] at hok
    · simp [setup4Validate] at hok
    · simp at hlen; omega
  · intro hu cfg hok
    simp [setup4Validate, hu] at hok
  · intro h1 cfg hok
    unfold setup4Validate at hok
    repeat' split at hok
    all_goals simp_all
  · intro h2 cfg hok
    unfold setup4Validate at hok
    repeat' split at hok
    all_goals simp_all
  · intro s e hs he hge cfg hok
    unfold setup4Validate at hok
    repeat' split at hok
    all_goals simp_all
    exact absurd hge (not_le.mpr (by assumption))
  · intro h3 cfg hok
    unfold setup4Validate at hok
    repeat' split at hok
    all_goals simp_all
  · intro s e d hu hs he hlt hd
    have hne : ¬ s ≥ e := by
      simp only [ge_iff_le, not_le]
      exact hlt
    simp only [setup4Validate, if_neg hu, hs, he, hd]
    rw [if_neg hne]

/-- Counterexample to C9 as stated: the negative lease duration
`"-10s"` parses, so setup accepts it and produces a configuration
with `LeaseTime = -10 s` instead of failing. -/
theorem setup4_negative_duration_cex :
    setup4Validate ["redis://u:p@h:6379/0", "10.0.0.1", "10.0.0.3", "-10s"] =
      .ok { uri := "redis://u:p@h:6379/0", startIP := 167772161,
            endIP := 167772163, LeaseTime := -10000000000 } ∧
    (-10000000000 : Int) < 0 :=
  ⟨rfl, by decide⟩

/-- Witness for C9 at concrete arguments: an inverted range is
rejected. -/
theorem setup4_validation_witness :
    ∀ cfg, setup4Validate
        ["redis://u:p@h:6379/0", "10.0.0.3", "10.0.0.1", "60s"] ≠ .ok cfg :=
  fun cfg =>
    (setup4_validation "redis://u:p@h:6379/0" "10.0.0.3" "10.0.0.1" "60s"
      []).2.2.2.2.1 167772163 167772161 rfl rfl (by decide) cfg

end RangeRedis
